import Mathlib

/-!
Shallow embedding of the storage core of the keep-plus repository.

The embedding covers:
* the shared result envelope and query option types (`src/services/types.ts`),
* the IndexedDB adapter (`IndexedDBCardStorage`, current version with
  `createdAt`/`updatedAt` fields),
* the Supabase adapter (`SupabaseCardStorage` in
  `src/services/supabase-storage.ts`), with the Postgres engine modelled as a
  pure row list,
* the logging facility (`src/services/logger.ts`).

Modelling conventions:
* Timestamps are natural numbers (milliseconds since the epoch).  The `Date`
  values of the source are totally ordered, which `Nat` captures.
* JavaScript `undefined`/absent object fields are `Option`; for `Partial<Card>`
  an optional Card field that is itself optional becomes a nested `Option`.
* JavaScript truthiness tests on numbers and strings (`if (options.limit)`,
  `if (filters.searchTerm)`) are transcribed explicitly: `0` and the empty
  string are falsy.
* Asynchronous operations whose promise may never resolve return an
  `Option`-wrapped envelope: `none` means the promise never settles.
* The IndexedDB object store is a list of cards kept in ascending key (`id`)
  order, matching the key order that `store.getAll()` returns; `store.add`
  fails exactly when the key is already present; `store.delete` never fails.
  Engine faults of individual requests outside these semantics (the
  `request.onerror` path for deletes) are abstracted as an explicit per-request
  verdict parameter where a claim needs them.
* The adapter registers `request.onerror` handlers that never cancel the error
  event (`event.preventDefault()` is never called), so a failing request
  aborts its enclosing transaction: every write already applied inside that
  transaction is rolled back, and the remaining requests of the transaction
  fail with AbortError instead of executing - their error callbacks still run,
  so the completion counter still reaches the batch length and the promise
  still resolves.
-/

namespace KeepPlus

/-- `Card` from `src/types/index.ts`: the persisted entity. -/
structure Card where
  id : Nat
  title : String
  coverUrl : Option String
  link : Option String
  content : Option String
  tags : List String
  createdAt : Nat
  updatedAt : Nat
deriving Repr, DecidableEq

/-- `Omit<Card, 'id' | 'createdAt' | 'updatedAt'>`: payload of `createCard`. -/
structure CardData where
  title : String
  coverUrl : Option String
  link : Option String
  content : Option String
  tags : List String
deriving Repr, DecidableEq

/-- `Partial<Card>`: payload of `updateCard`.  An outer `none` means the key is
absent from the partial object; for optional Card fields the inner `Option` is
the field value itself. -/
structure CardPatch where
  id : Option Nat := none
  title : Option String := none
  coverUrl : Option (Option String) := none
  link : Option (Option String) := none
  content : Option (Option String) := none
  tags : Option (List String) := none
  createdAt : Option Nat := none
  updatedAt : Option Nat := none
deriving Repr, DecidableEq

/-- `DatabaseResult<T>` from `src/services/types.ts`. -/
structure DatabaseResult (α : Type) where
  success : Bool
  data : Option α := none
  error : Option String := none
deriving Repr, DecidableEq

/-- The Card fields accepted as `sortBy : keyof Card` that carry a total order
in the source comparator. -/
inductive SortField where
  | id
  | title
  | createdAt
  | updatedAt
deriving Repr, DecidableEq

inductive SortOrder where
  | asc
  | desc
deriving Repr, DecidableEq

/-- `QueryOptions.filters` from `src/services/types.ts`.  The date range is a
pair of bounds compared against `createdAt`. -/
structure QueryFilters where
  tags : Option (List String) := none
  searchTerm : Option String := none
  dateRange : Option (Nat × Nat) := none
deriving Repr, DecidableEq

/-- `QueryOptions` from `src/services/types.ts`. -/
structure QueryOptions where
  limit : Option Nat := none
  offset : Option Nat := none
  sortBy : Option SortField := none
  sortOrder : Option SortOrder := none
  filters : Option QueryFilters := none
deriving Repr, DecidableEq

/-- JavaScript truthiness of an optional number: absent and `0` are falsy. -/
def truthyNat : Option Nat → Bool
  | none => false
  | some n => n != 0

/-- JavaScript truthiness of an optional string: absent and `""` are falsy. -/
def truthyStr : Option String → Bool
  | none => false
  | some s => s != ""

/-- JavaScript `x || d` for an optional number (`0` falls through to `d`). -/
def jsOrNat (o : Option Nat) (d : Nat) : Nat :=
  match o with
  | none => d
  | some n => if n = 0 then d else n

/-- JavaScript `Array.prototype.slice(start, stop)` for the nonnegative
indices the adapters use. -/
def jsSlice (l : List α) (start stop : Nat) : List α :=
  (l.drop start).take (stop - start)

/-- JavaScript substring test `s.includes(sub)`. -/
def strIncludes (s sub : String) : Bool :=
  (List.range (s.data.length + 1)).any (fun i => sub.data.isPrefixOf (s.data.drop i))

/-! ## IndexedDB object store primitives

The `cards` object store is keyed by `id`; we keep the record list in
ascending key order (the order `getAll` returns) with unique keys. -/

/-- `store.get(id)`: the record with the given key, if any. -/
def storeGet (s : List Card) (id : Nat) : Option Card :=
  s.find? (fun c => c.id = id)

/-- Insert a record at its key position (keeps ascending `id` order). -/
def storeInsert (c : Card) : List Card → List Card
  | [] => [c]
  | x :: xs => if c.id < x.id then c :: x :: xs else x :: storeInsert c xs

/-- `store.add(card)`: fails (ConstraintError) exactly when the key is already
present, otherwise inserts. -/
def storeAdd (s : List Card) (c : Card) : Option (List Card) :=
  if s.any (fun x => x.id = c.id) then none else some (storeInsert c s)

/-- `store.put(card)`: replaces the record with the same key, or inserts. -/
def storePut (s : List Card) (c : Card) : List Card :=
  storeInsert c (s.filter (fun x => x.id != c.id))

/-- `store.delete(id)`: removes the record with the key; succeeds even when the
key is absent. -/
def storeDelete (s : List Card) (id : Nat) : List Card :=
  s.filter (fun c => c.id != id)

/-! ## Sorting

`applySorting` uses `Array.prototype.sort` with a comparator built from the
selected field; modern JavaScript engines implement a stable sort, modelled
here as a stable insertion sort driven by a boolean "may stay before"
relation derived from the comparator. -/

/-- Insert `x` (a later element of the original order) after every retained
element `y` with `le y x`; this realises a stable sort step. -/
def orderedInsert (le : α → α → Bool) (x : α) : List α → List α
  | [] => [x]
  | y :: ys => if le y x then y :: orderedInsert le x ys else x :: y :: ys

/-- Stable sort by a boolean relation, processing the list left to right. -/
def stableSortBy (le : α → α → Bool) (l : List α) : List α :=
  l.foldl (fun acc x => orderedInsert le x acc) []

/-- The comparator of `applySorting` on one sortable field. -/
def fieldCmp : SortField → Card → Card → Ordering
  | .id, a, b => compare a.id b.id
  | .title, a, b => compare a.title b.title
  | .createdAt, a, b => compare a.createdAt b.createdAt
  | .updatedAt, a, b => compare a.updatedAt b.updatedAt

/-- "`a` may come before `b`" under the comparator (comparison result `<= 0`
after the `desc` negation of the source). -/
def sortLe (sortBy : SortField) (sortOrder : SortOrder) (a b : Card) : Bool :=
  match fieldCmp sortBy a b, sortOrder with
  | .eq, _ => true
  | .lt, .asc => true
  | .lt, .desc => false
  | .gt, .asc => false
  | .gt, .desc => true

/-- `IndexedDBCardStorage.applySorting`. -/
def applySorting (cards : List Card) (sortBy : SortField) (sortOrder : SortOrder) :
    List Card :=
  stableSortBy (sortLe sortBy sortOrder) cards

/-! ## Filtering -/

/-- The predicate of `IndexedDBCardStorage.applyFilters` on one card: tag
filter (OR-match via `some`/`includes`), case-insensitive substring search over
title, content and tags, and inclusive date-range bounds on `createdAt`.
JavaScript truthiness guards (`filters.tags && filters.tags.length > 0`,
`filters.searchTerm`, `card.content && ...`) are transcribed explicitly. -/
def cardMatchesFilters (filters : QueryFilters) (card : Card) : Bool :=
  (match filters.tags with
    | some tags =>
      if tags.length > 0 then tags.any (fun tag => card.tags.contains tag) else true
    | none => true)
  &&
  (match filters.searchTerm with
    | some st =>
      if st = "" then true
      else
        let searchLower := st.toLower
        (strIncludes card.title.toLower searchLower
          || (match card.content with
              | some c => if c = "" then false else strIncludes c.toLower searchLower
              | none => false)
          || card.tags.any (fun tag => strIncludes tag.toLower searchLower))
    | none => true)
  &&
  (match filters.dateRange with
    | some range =>
      if card.createdAt < range.1 || card.createdAt > range.2 then false else true
    | none => true)

/-- `IndexedDBCardStorage.applyFilters`. -/
def applyFilters (cards : List Card) (filters : QueryFilters) : List Card :=
  cards.filter (cardMatchesFilters filters)

/-- The pagination block of `IndexedDBCardStorage.getCards`: runs only when
`options.limit || options.offset` is truthy; `start = options.offset || 0`,
`end = start + (options.limit || cards.length)`. -/
def applyPagination (cards : List Card) (limit offset : Option Nat) : List Card :=
  if truthyNat limit || truthyNat offset then
    let start := jsOrNat offset 0
    let stop := start + jsOrNat limit cards.length
    jsSlice cards start stop
  else cards

/-! ## IndexedDB adapter operations

Each operation takes the object-store contents and returns the result
envelope together with the new contents; the nondeterministic inputs of the
source (current time `Date.now`, the generated id) are explicit parameters. -/

/-- `IndexedDBCardStorage.getCards`: load all records in key order, then
filter, then sort (only when `sortBy` is supplied), then paginate. -/
def idbGetCards (s : List Card) (options : Option QueryOptions) :
    DatabaseResult (List Card) :=
  let cards := s
  let cards :=
    match options.bind (fun o => o.filters) with
    | some f => applyFilters cards f
    | none => cards
  let cards :=
    match options.bind (fun o => o.sortBy) with
    | some sb =>
      applySorting cards sb ((options.bind (fun o => o.sortOrder)).getD .desc)
    | none => cards
  let cards :=
    match options with
    | some o => applyPagination cards o.limit o.offset
    | none => cards
  { success := true, data := some cards }

/-- `IndexedDBCardStorage.getCard`: `data` is the found record or null, with
`success: true` either way. -/
def idbGetCard (s : List Card) (id : Nat) : DatabaseResult (Option Card) :=
  { success := true, data := some (storeGet s id) }

/-- `IndexedDBCardStorage.createCard`: builds the card from the payload with a
generated id and `createdAt = updatedAt = now`, then issues `store.add`. -/
def idbCreateCard (s : List Card) (cardData : CardData) (now genId : Nat) :
    DatabaseResult Card × List Card :=
  let card : Card :=
    { id := genId
      title := cardData.title
      coverUrl := cardData.coverUrl
      link := cardData.link
      content := cardData.content
      tags := cardData.tags
      createdAt := now
      updatedAt := now }
  match storeAdd s card with
  | some s2 => ({ success := true, data := some card }, s2)
  | none =>
    ({ success := false, error := some "Failed to create card: ConstraintError" }, s)

/-- The object spread `{...existingResult.data, ...updates}` of
`IndexedDBCardStorage.updateCard`: every key present in the partial overrides
the existing field. -/
def applyCardPatch (existing : Card) (updates : CardPatch) : Card :=
  { id := updates.id.getD existing.id
    title := updates.title.getD existing.title
    coverUrl := updates.coverUrl.getD existing.coverUrl
    link := updates.link.getD existing.link
    content := updates.content.getD existing.content
    tags := updates.tags.getD existing.tags
    createdAt := updates.createdAt.getD existing.createdAt
    updatedAt := updates.updatedAt.getD existing.updatedAt }

/-- `IndexedDBCardStorage.updateCard`: not-found becomes a failure envelope;
otherwise the spread is applied, then `id` is forced back and `updatedAt` set
to now, and the record is written with `store.put`. -/
def idbUpdateCard (s : List Card) (id : Nat) (updates : CardPatch) (now : Nat) :
    DatabaseResult Card × List Card :=
  match storeGet s id with
  | none => ({ success := false, error := some "Card not found" }, s)
  | some existing =>
    let updatedCard := { applyCardPatch existing updates with id := id, updatedAt := now }
    ({ success := true, data := some updatedCard }, storePut s updatedCard)

/-- `IndexedDBCardStorage.deleteCard`. -/
def idbDeleteCard (s : List Card) (id : Nat) : DatabaseResult Unit × List Card :=
  ({ success := true }, storeDelete s id)

/-- `IndexedDBCardStorage.clearAll`. -/
def idbClearAll (_s : List Card) : DatabaseResult Unit × List Card :=
  ({ success := true }, [])

/-- `IndexedDBCardStorage.exportData` = `getCards()` with no options. -/
def idbExportData (s : List Card) : DatabaseResult (List Card) :=
  idbGetCards s none

/-- `IndexedDBCardStorage.getCardsByTag` = `getCards({filters: {tags: [tag]}})`. -/
def idbGetCardsByTag (s : List Card) (tag : String) : DatabaseResult (List Card) :=
  idbGetCards s (some { filters := some { tags := some [tag] } })

/-- `IndexedDBCardStorage.searchCards` = `getCards({filters: {searchTerm: query}})`. -/
def idbSearchCards (s : List Card) (query : String) : DatabaseResult (List Card) :=
  idbGetCards s (some { filters := some { searchTerm := some query } })

/-! ## Bulk operations of the IndexedDB adapter

The bulk methods issue one request per item and resolve their promise only
inside the per-item callbacks, when the incremented `completed` counter equals
the batch length.  `settleBatch` transcribes that resolution protocol: after
the `i`-th callback (0-based) the counter is `i + 1`, and the promise resolves
exactly when it reaches the batch length; with zero callbacks nothing ever
resolves (`none`). -/

/-- Promise resolution of a completion-counter batch with `n` callbacks. -/
def settleBatch (n : Nat) (env : DatabaseResult α) : Option (DatabaseResult α) :=
  (List.range n).foldl (fun acc i => if i + 1 = n then some env else acc) none

/-- Running state of a batch of `store.add` requests inside one transaction.
`store` is the tentative store as the transaction's writes pile up; `errors`
collects the titles pushed by `request.onerror`; `succeeded` is ghost
bookkeeping listing the cards whose success callback fired; `lastFailed`
records which handler the final callback ran in (it selects the failure
message of the source); `aborted` is set when an error event goes uncancelled
(the source handlers never call `preventDefault`), which aborts the
transaction: later requests fail with AbortError and, on completion, every
tentative write is discarded. -/
structure BatchAcc where
  store : List Card
  errors : List String
  succeeded : List Card
  lastFailed : Bool
  aborted : Bool
deriving Repr, DecidableEq

/-- One `store.add(card)` request with its success/error callback.  Once the
transaction is aborted, the pending request fails with AbortError (its error
callback still pushes the title); a ConstraintError on a live transaction runs
the error callback and, uncancelled, aborts the transaction. -/
def addStep (acc : BatchAcc) (card : Card) : BatchAcc :=
  if acc.aborted then
    { acc with errors := acc.errors ++ [card.title], lastFailed := true }
  else
    match storeAdd acc.store card with
    | some s2 =>
      { acc with store := s2, succeeded := acc.succeeded ++ [card], lastFailed := false }
    | none =>
      { acc with errors := acc.errors ++ [card.title], lastFailed := true, aborted := true }

/-- The whole `cards.forEach(card => store.add(card))` loop. -/
def runAddBatch (s : List Card) (cards : List Card) : BatchAcc :=
  cards.foldl addStep
    { store := s, errors := [], succeeded := [], lastFailed := false, aborted := false }

/-- The upfront `cardsData.map(...)` of `bulkCreateCards`: every card of the
batch shares one `now` and receives one generated id. -/
def idbMkBulkCards (cardsData : List CardData) (now : Nat) (genIds : List Nat) :
    List Card :=
  (cardsData.zip genIds).map (fun p =>
    { id := p.2
      title := p.1.title
      coverUrl := p.1.coverUrl
      link := p.1.link
      content := p.1.content
      tags := p.1.tags
      createdAt := now
      updatedAt := now })

/-- `IndexedDBCardStorage.bulkCreateCards`: all cards of the batch are built
upfront, then added individually inside one transaction; the envelope
aggregates per-item failures.  When any request failed, the uncancelled error
event has aborted the transaction, so the durable store reverts to its state
at transaction start. -/
def idbBulkCreateCards (s : List Card) (cardsData : List CardData) (now : Nat)
    (genIds : List Nat) : Option (DatabaseResult (List Card)) × List Card :=
  let cards : List Card := idbMkBulkCards cardsData now genIds
  let acc := runAddBatch s cards
  let env : DatabaseResult (List Card) :=
    if acc.errors = [] then { success := true, data := some cards }
    else
      { success := false
        error := some
          ((if acc.lastFailed then "Failed to create cards: "
            else "Some cards failed to create: ")
            ++ String.intercalate ", " acc.errors) }
  (settleBatch cards.length env, if acc.aborted then s else acc.store)

/-- Running state of a batch of `store.delete` requests inside one
transaction; fields as in `BatchAcc`, with `removed` the ghost list of ids
whose success callback fired. -/
structure DelAcc where
  store : List Card
  errors : List String
  removed : List Nat
  lastFailed : Bool
  aborted : Bool
deriving Repr, DecidableEq

/-- One `store.delete(id)` request.  A delete request only errors through the
engine; `engineFails` is that per-request verdict (IndexedDB deletes succeed
even for absent keys).  An uncancelled error aborts the transaction, and
pending requests on an aborted transaction fail with AbortError. -/
def delStep (engineFails : Nat → Bool) (acc : DelAcc) (id : Nat) : DelAcc :=
  if acc.aborted then
    { acc with errors := acc.errors ++ [toString id], lastFailed := true }
  else if engineFails id then
    { acc with errors := acc.errors ++ [toString id], lastFailed := true, aborted := true }
  else
    { acc with
      store := storeDelete acc.store id
      removed := acc.removed ++ [id]
      lastFailed := false }

/-- The `ids.forEach(id => store.delete(id))` loop. -/
def runDelBatch (engineFails : Nat → Bool) (s : List Card) (ids : List Nat) : DelAcc :=
  ids.foldl (delStep engineFails)
    { store := s, errors := [], removed := [], lastFailed := false, aborted := false }

/-- `IndexedDBCardStorage.bulkDeleteCards`; on any request failure the aborted
transaction rolls the deletes back. -/
def idbBulkDeleteCards (engineFails : Nat → Bool) (s : List Card) (ids : List Nat) :
    Option (DatabaseResult Unit) × List Card :=
  let acc := runDelBatch engineFails s ids
  let env : DatabaseResult Unit :=
    if acc.errors = [] then { success := true }
    else
      { success := false
        error := some
          ((if acc.lastFailed then "Failed to delete cards: "
            else "Some cards failed to delete: ")
            ++ String.intercalate ", " acc.errors) }
  (settleBatch ids.length env, if acc.aborted then s else acc.store)

/-- `IndexedDBCardStorage.importData`: clears the store first (its own
transaction, which commits; always succeeds in the engine model), then re-adds
the supplied records verbatim in a second transaction with the same
completion-counter protocol; a request failure aborts that second transaction,
rolling back to the cleared state. -/
def idbImportData (s : List Card) (cards : List Card) :
    Option (DatabaseResult Unit) × List Card :=
  let cleared := (idbClearAll s).2
  let acc := runAddBatch cleared cards
  let env : DatabaseResult Unit :=
    if acc.errors = [] then { success := true }
    else
      { success := false
        error := some
          ((if acc.lastFailed then "Failed to import cards: "
            else "Some cards failed to import: ")
            ++ String.intercalate ", " acc.errors) }
  (settleBatch cards.length env, if acc.aborted then cleared else acc.store)

/-- `IndexedDBCardStorage.initialize`: no memoization flag; `openDatabase` is
invoked unconditionally on every call.  The connection state records how many
engine opens have been issued. -/
structure IDBConn where
  db : Bool
  opens : Nat
deriving Repr, DecidableEq

/-- A fresh adapter instance (`this.db = null`). -/
def idbConnInit : IDBConn := { db := false, opens := 0 }

/-- `initialize()` of the IndexedDB adapter: always awaits `openDatabase()`,
which issues `indexedDB.open` and caches the handle. -/
def idbInitialize (st : IDBConn) : DatabaseResult Unit × IDBConn :=
  ({ success := true }, { db := true, opens := st.opens + 1 })

/-! ## Supabase adapter

The Postgres `cards` table is modelled as a list of snake_case rows; the
network engine is abstracted as pure list transformations.  Identity-column id
assignment and `NOW()` defaults are explicit parameters. -/

/-- `SupabaseCard`: the row shape of the `cards` table. -/
structure SupabaseRow where
  id : Nat
  title : String
  cover_url : Option String
  link : Option String
  content : Option String
  tags : List String
  created_at : Nat
  updated_at : Nat
deriving Repr, DecidableEq

/-- JavaScript `x || undefined` on a nullable string column (both `null` and
the empty string are falsy). -/
def jsOrUndefined : Option String → Option String
  | none => none
  | some s => if s = "" then none else some s

/-- `SupabaseCardStorage.fromSupabaseCard`. -/
def fromSupabaseCard (dbCard : SupabaseRow) : Card :=
  { id := dbCard.id
    title := dbCard.title
    coverUrl := jsOrUndefined dbCard.cover_url
    link := jsOrUndefined dbCard.link
    content := jsOrUndefined dbCard.content
    tags := dbCard.tags
    createdAt := dbCard.created_at
    updatedAt := dbCard.updated_at }

/-- A partial row, as built by `toSupabaseCard` from a partial Card. -/
structure SupabaseRowPatch where
  id : Option Nat := none
  title : Option String := none
  cover_url : Option (Option String) := none
  link : Option (Option String) := none
  content : Option (Option String) := none
  tags : Option (List String) := none
  created_at : Option Nat := none
  updated_at : Option Nat := none
deriving Repr, DecidableEq

/-- `SupabaseCardStorage.toSupabaseCard`: copies each key present (and not
undefined) in the partial, mapping falsy optional strings to `null`
(`card.coverUrl || null`). -/
def toSupabaseCard (card : CardPatch) : SupabaseRowPatch :=
  { id := card.id
    title := card.title
    cover_url :=
      match card.coverUrl with
      | some (some s) => some (if s = "" then none else some s)
      | _ => none
    link :=
      match card.link with
      | some (some s) => some (if s = "" then none else some s)
      | _ => none
    content :=
      match card.content with
      | some (some s) => some (if s = "" then none else some s)
      | _ => none
    tags := card.tags
    created_at := card.createdAt
    updated_at := card.updatedAt }

/-- Apply a partial row to a row (the engine-side UPDATE SET). -/
def applyRowPatch (r : SupabaseRow) (p : SupabaseRowPatch) : SupabaseRow :=
  { id := p.id.getD r.id
    title := p.title.getD r.title
    cover_url := p.cover_url.getD r.cover_url
    link := p.link.getD r.link
    content := p.content.getD r.content
    tags := p.tags.getD r.tags
    created_at := p.created_at.getD r.created_at
    updated_at := p.updated_at.getD r.updated_at }

/-- Engine-side comparison on the translated order column. -/
def rowFieldCmp : SortField → SupabaseRow → SupabaseRow → Ordering
  | .id, a, b => compare a.id b.id
  | .title, a, b => compare a.title b.title
  | .createdAt, a, b => compare a.created_at b.created_at
  | .updatedAt, a, b => compare a.updated_at b.updated_at

/-- "`a` may come before `b`" for the engine ORDER BY. -/
def rowSortLe (sortBy : SortField) (ascending : Bool) (a b : SupabaseRow) : Bool :=
  match rowFieldCmp sortBy a b, ascending with
  | .eq, _ => true
  | .lt, true => true
  | .lt, false => false
  | .gt, true => false
  | .gt, false => true

/-- The filter chain of `SupabaseCardStorage.getCards` on one row: the tag
filter is the Postgres array `contains` operator (the row must contain ALL
supplied tags); the search is `ilike` over title OR content; the date range is
inclusive bounds on `created_at`. -/
def rowMatchesQuery (filters : QueryFilters) (row : SupabaseRow) : Bool :=
  (match filters.tags with
    | some tags =>
      if tags.length > 0 then tags.all (fun tag => row.tags.contains tag) else true
    | none => true)
  &&
  (if truthyStr filters.searchTerm then
    let term := (filters.searchTerm.getD "").toLower
    (strIncludes row.title.toLower term
      || (match row.content with
          | some c => strIncludes c.toLower term
          | none => false))
  else true)
  &&
  (match filters.dateRange with
    | some range => decide (range.1 ≤ row.created_at) && decide (row.created_at ≤ range.2)
    | none => true)

/-- `SupabaseCardStorage.getCards`: filters, then ORDER BY the translated sort
column (default `updated_at` descending), then `limit`/`range` pagination, then
row-to-Card translation.  A truthy `offset` issues
`range(offset, offset + (limit || 10) - 1)`, which supersedes `limit`. -/
def sbGetCards (rows : List SupabaseRow) (options : Option QueryOptions) :
    DatabaseResult (List Card) :=
  let filtered :=
    match options.bind (fun o => o.filters) with
    | some f => rows.filter (rowMatchesQuery f)
    | none => rows
  let sortBy := (options.bind (fun o => o.sortBy)).getD .updatedAt
  let sortOrder := (options.bind (fun o => o.sortOrder)).getD .desc
  let sorted := stableSortBy (rowSortLe sortBy (sortOrder = .asc)) filtered
  let off := options.bind (fun o => o.offset)
  let lim := options.bind (fun o => o.limit)
  let paged :=
    if truthyNat off then
      jsSlice sorted (off.getD 0) (off.getD 0 + jsOrNat lim 10)
    else if truthyNat lim then sorted.take (lim.getD 0)
    else sorted
  { success := true, data := some (paged.map fromSupabaseCard) }

/-- `SupabaseCardStorage.getCardsByTag` = `getCards({filters: {tags: [tag]}})`. -/
def sbGetCardsByTag (rows : List SupabaseRow) (tag : String) :
    DatabaseResult (List Card) :=
  sbGetCards rows (some { filters := some { tags := some [tag] } })

/-- `SupabaseCardStorage.createCard`: inserts a row built from the payload
(no validation); the engine assigns the identity id and `NOW()` timestamps. -/
def sbCreateCard (rows : List SupabaseRow) (cardData : CardData) (genId now : Nat) :
    DatabaseResult Card × List SupabaseRow :=
  let row : SupabaseRow :=
    { id := genId
      title := cardData.title
      cover_url := match cardData.coverUrl with
        | some s => if s = "" then none else some s
        | none => none
      link := match cardData.link with
        | some s => if s = "" then none else some s
        | none => none
      content := match cardData.content with
        | some s => if s = "" then none else some s
        | none => none
      tags := cardData.tags
      created_at := now
      updated_at := now }
  ({ success := true, data := some (fromSupabaseCard row) }, rows ++ [row])

/-- `SupabaseCardStorage.updateCard`: translates the partial, deletes `id` and
`created_at` from it, updates the matching row (the engine trigger refreshes
`updated_at`); `.single()` on zero matched rows raises, caught as a failure
envelope. -/
def sbUpdateCard (rows : List SupabaseRow) (id : Nat) (updates : CardPatch)
    (now : Nat) : DatabaseResult Card × List SupabaseRow :=
  let dbUpdates := { toSupabaseCard updates with id := none, created_at := none }
  match rows.find? (fun r => r.id = id) with
  | none =>
    ({ success := false, error := some "Failed to update card: PGRST116" }, rows)
  | some r =>
    let r2 := { applyRowPatch r dbUpdates with updated_at := now }
    let rows2 := rows.map (fun x => if x.id = id then r2 else x)
    ({ success := true, data := some (fromSupabaseCard r2) }, rows2)

/-- `SupabaseCardStorage.initialize` instance state: the memoized
`initialized` flag plus a count of `runMigrations` invocations. -/
structure SBInit where
  initialized : Bool
  migrationRuns : Nat
deriving Repr, DecidableEq

/-- A freshly constructed Supabase adapter. -/
def sbInit : SBInit := { initialized := false, migrationRuns := 0 }

/-- `SupabaseCardStorage.initialize`: returns success immediately when already
initialized; otherwise runs the migrations (outcome supplied by the
environment) and memoizes the flag only on success. -/
def sbInitialize (st : SBInit) (migrationResult : DatabaseResult Unit) :
    DatabaseResult Unit × SBInit :=
  if st.initialized then ({ success := true }, st)
  else if migrationResult.success then
    ({ success := true }, { initialized := true, migrationRuns := st.migrationRuns + 1 })
  else (migrationResult, { st with migrationRuns := st.migrationRuns + 1 })

/-! ## Logging facility (`src/services/logger.ts`) -/

inductive LogLevel where
  | debug
  | info
  | warn
  | error
  | metric
deriving Repr, DecidableEq

/-- `LogEntry`; the structured `data` payload is kept abstract as a string. -/
structure LogEntry where
  timestamp : Nat
  level : LogLevel
  message : String
  context : Option String := none
  payload : Option String := none
  stack : Option String := none
deriving Repr, DecidableEq

/-- The `Logger` instance fields plus the `app_logs` localStorage item. -/
structure LoggerState where
  logs : List LogEntry
  maxLogs : Nat
  enableConsole : Bool
  enableStorage : Bool
  storage : Option (List LogEntry)
deriving Repr, DecidableEq

/-- A fresh logger with empty localStorage (the constructor load finds
nothing). -/
def loggerInit : LoggerState :=
  { logs := [], maxLogs := 1000, enableConsole := true, enableStorage := true
    storage := none }

/-- The storage mirror keeps only the last 500 entries
(`this.logs.slice(-500)`). -/
def storageCap : Nat := 500

/-- JavaScript `Array.prototype.slice(-n)`: the last `n` elements, except that
`slice(-0)` is `slice(0)`, the whole array. -/
def jsSliceLast (l : List α) (n : Nat) : List α :=
  if n = 0 then l else l.drop (l.length - n)

/-- `Logger.log`: push the entry, trim to the last `maxLogs` entries when the
cap is exceeded, then mirror the trimmed buffer to storage when enabled. -/
def loggerLog (st : LoggerState) (e : LogEntry) : LoggerState :=
  let logs := st.logs ++ [e]
  let logs := if logs.length > st.maxLogs then jsSliceLast logs st.maxLogs else logs
  let storage :=
    if st.enableStorage then some (jsSliceLast logs storageCap) else st.storage
  { st with logs := logs, storage := storage }

/-- `Logger.configure`: overwrites only the supplied options; it does not trim
the buffer. -/
def loggerConfigure (st : LoggerState) (maxLogs : Option Nat)
    (enableConsole enableStorage : Option Bool) : LoggerState :=
  { st with
    maxLogs := maxLogs.getD st.maxLogs
    enableConsole := enableConsole.getD st.enableConsole
    enableStorage := enableStorage.getD st.enableStorage }

/-- One call against the logger singleton. -/
inductive LogOp where
  | log (e : LogEntry)
  | configure (maxLogs : Option Nat) (enableConsole enableStorage : Option Bool)
deriving Repr, DecidableEq

def loggerStep (st : LoggerState) : LogOp → LoggerState
  | .log e => loggerLog st e
  | .configure m c s => loggerConfigure st m c s

/-- A whole call sequence against the logger. -/
def loggerRun (st : LoggerState) (ops : List LogOp) : LoggerState :=
  ops.foldl loggerStep st

/-- The log entries appended by a call sequence, in call order. -/
def traceEntries : List LogOp → List LogEntry
  | [] => []
  | .log e :: rest => e :: traceEntries rest
  | .configure _ _ _ :: rest => traceEntries rest

/-! ## Helper lemmas: stable sort -/

theorem mem_orderedInsert (le : α → α → Bool) (x a : α) (l : List α) :
    a ∈ orderedInsert le x l ↔ a = x ∨ a ∈ l := by
  induction l with
  | nil => simp [orderedInsert]
  | cons y ys ih =>
    by_cases h : le y x = true
    · simp only [orderedInsert, h, if_pos, List.mem_cons, ih]
      tauto
    · simp only [orderedInsert, h, Bool.false_eq_true, if_neg, not_false_iff,
        List.mem_cons]

theorem mem_stableSortBy (le : α → α → Bool) (a : α) (l : List α) :
    a ∈ stableSortBy le l ↔ a ∈ l := by
  suffices h : ∀ (acc : List α), a ∈ l.foldl (fun acc x => orderedInsert le x acc) acc
      ↔ a ∈ acc ∨ a ∈ l by
    simpa using h []
  induction l with
  | nil => simp
  | cons x xs ih =>
    intro acc
    simp only [List.foldl_cons, ih, mem_orderedInsert, List.mem_cons]
    tauto

theorem pairwise_orderedInsert (le : α → α → Bool)
    (htot : ∀ a b, le a b = true ∨ le b a = true)
    (htrans : ∀ a b c, le a b = true → le b c = true → le a c = true)
    (x : α) (l : List α) (hl : l.Pairwise (fun a b => le a b = true)) :
    (orderedInsert le x l).Pairwise (fun a b => le a b = true) := by
  induction l with
  | nil => simp [orderedInsert]
  | cons y ys ih =>
    rcases List.pairwise_cons.mp hl with ⟨hy, hys⟩
    by_cases h : le y x = true
    · simp only [orderedInsert, h, if_pos]
      refine List.pairwise_cons.mpr ⟨?_, ih hys⟩
      intro b hb
      rcases (mem_orderedInsert le x b ys).mp hb with rfl | hb
      · exact h
      · exact hy b hb
    · simp only [orderedInsert, h, Bool.false_eq_true, if_neg, not_false_iff]
      have hxy : le x y = true := by
        rcases htot x y with h1 | h1
        · exact h1
        · exact absurd h1 h
      refine List.pairwise_cons.mpr ⟨?_, hl⟩
      intro b hb
      rcases List.mem_cons.mp hb with rfl | hb
      · exact hxy
      · exact htrans x y b hxy (hy b hb)

theorem pairwise_stableSortBy (le : α → α → Bool)
    (htot : ∀ a b, le a b = true ∨ le b a = true)
    (htrans : ∀ a b c, le a b = true → le b c = true → le a c = true)
    (l : List α) :
    (stableSortBy le l).Pairwise (fun a b => le a b = true) := by
  suffices h : ∀ (acc : List α), acc.Pairwise (fun a b => le a b = true) →
      (l.foldl (fun acc x => orderedInsert le x acc) acc).Pairwise
        (fun a b => le a b = true) by
    exact h [] (by simp)
  induction l with
  | nil => intro acc hacc; simpa using hacc
  | cons x xs ih =>
    intro acc hacc
    exact ih (orderedInsert le x acc) (pairwise_orderedInsert le htot htrans x acc hacc)

/-! ## Helper lemmas: object store -/

theorem mem_storeInsert (c a : Card) (s : List Card) :
    a ∈ storeInsert c s ↔ a = c ∨ a ∈ s := by
  induction s with
  | nil => simp [storeInsert]
  | cons x xs ih =>
    by_cases h : c.id < x.id
    · simp only [storeInsert, h, if_pos, List.mem_cons]
    · simp only [storeInsert, h, if_neg, not_false_iff, List.mem_cons, ih]
      tauto

theorem storeInsert_append (c : Card) (s : List Card)
    (h : ∀ a ∈ s, a.id < c.id) : storeInsert c s = s ++ [c] := by
  induction s with
  | nil => simp [storeInsert]
  | cons x xs ih =>
    have hx : x.id < c.id := h x (by simp)
    have hnot : ¬ c.id < x.id := by omega
    simp only [storeInsert, hnot, if_neg, not_false_iff, List.cons_append,
      List.cons.injEq, true_and]
    exact ih (fun a ha => h a (by simp [ha]))

theorem storeGet_storeInsert_self (c : Card) (s : List Card)
    (h : ∀ x ∈ s, x.id ≠ c.id) : storeGet (storeInsert c s) c.id = some c := by
  induction s with
  | nil => simp [storeGet, storeInsert, List.find?]
  | cons x xs ih =>
    by_cases hlt : c.id < x.id
    · simp [storeGet, storeInsert, hlt, List.find?]
    · have hx : x.id ≠ c.id := h x (by simp)
      have ihx := ih (fun a ha => h a (by simp [ha]))
      simp only [storeGet, storeInsert, hlt, if_neg, not_false_iff] at *
      rw [List.find?_cons_of_neg]
      · exact ihx
      · simp [hx]

theorem storeGet_storePut (c : Card) (s : List Card) :
    storeGet (storePut s c) c.id = some c := by
  unfold storePut
  apply storeGet_storeInsert_self
  intro x hx
  have := List.mem_filter.mp hx
  simpa using this.2

/-! ## Helper lemmas: batch resolution protocol -/

theorem settleBatch_zero (env : DatabaseResult α) : settleBatch 0 env = none := rfl

theorem settleBatch_succ (n : Nat) (env : DatabaseResult α) :
    settleBatch (n + 1) env = some env := by
  unfold settleBatch
  rw [List.range_succ, List.foldl_append]
  simp

/-! ## Helper lemmas: add batches -/

/-- `store.add` step on a live transaction with a fresh key: the success
callback runs. -/
theorem addStep_ok (acc : BatchAcc) (c : Card) (hab : acc.aborted = false)
    (h : acc.store.any (fun x => x.id = c.id) = false) :
    addStep acc c
      = { store := storeInsert c acc.store, errors := acc.errors,
          succeeded := acc.succeeded ++ [c], lastFailed := false, aborted := false } := by
  unfold addStep storeAdd
  rw [hab, h]
  simp

/-- Adding a key-sorted batch of fresh records onto a store whose keys all
precede the batch succeeds item by item, never aborts the transaction, and
appends the batch in order. -/
theorem addBatch_sorted (cards : List Card) (st : List Card)
    (errs : List String) (succ : List Card) (lf : Bool)
    (hsorted : (st ++ cards).Pairwise (fun a b => a.id < b.id)) :
    cards.foldl addStep
        { store := st, errors := errs, succeeded := succ, lastFailed := lf,
          aborted := false }
      = { store := st ++ cards, errors := errs, succeeded := succ ++ cards,
          lastFailed := if cards.isEmpty then lf else false, aborted := false } := by
  induction cards generalizing st succ lf with
  | nil => simp
  | cons c rest ih =>
    have hlt : ∀ a ∈ st, a.id < c.id := by
      intro a ha
      have := (List.pairwise_append.mp hsorted).2.2
      exact this a ha c (by simp)
    have hnodup : st.any (fun x => x.id = c.id) = false := by
      rw [List.any_eq_false]
      intro x hx
      have := hlt x hx
      simp only [decide_eq_true_eq]
      omega
    have hsorted2 : ((st ++ [c]) ++ rest).Pairwise (fun a b => a.id < b.id) := by
      simpa [List.append_assoc] using hsorted
    rw [List.foldl_cons, addStep_ok _ _ rfl hnodup]
    simp only [storeInsert_append c st hlt]
    rw [ih (st ++ [c]) (succ ++ [c]) false hsorted2]
    simp [List.append_assoc]

/-! ## Helper lemmas: logger -/

theorem suffix_append_both {l1 l2 t : List α} (h : l1 <:+ l2) : l1 ++ t <:+ l2 ++ t := by
  obtain ⟨u, rfl⟩ := h
  exact ⟨u, by simp⟩

theorem jsSliceLast_suffix (l : List α) (n : Nat) : jsSliceLast l n <:+ l := by
  unfold jsSliceLast
  split
  · exact List.suffix_refl l
  · exact List.drop_suffix _ l

theorem jsSliceLast_length_le (l : List α) (n : Nat) (h : n ≠ 0) :
    (jsSliceLast l n).length ≤ n := by
  unfold jsSliceLast
  rw [if_neg h]
  rw [List.length_drop]
  omega

theorem loggerLog_logs_suffix (st : LoggerState) (e : LogEntry) :
    (loggerLog st e).logs <:+ st.logs ++ [e] := by
  unfold loggerLog
  dsimp only
  split
  · exact jsSliceLast_suffix _ _
  · exact List.suffix_refl _

theorem loggerLog_length_le (st : LoggerState) (e : LogEntry) (h : st.maxLogs ≠ 0) :
    (loggerLog st e).logs.length ≤ st.maxLogs := by
  unfold loggerLog
  dsimp only
  split
  · exact jsSliceLast_length_le _ _ h
  · omega

theorem loggerRun_logs_suffix (ops : List LogOp) (st : LoggerState) :
    (loggerRun st ops).logs <:+ st.logs ++ traceEntries ops := by
  induction ops generalizing st with
  | nil => simp [loggerRun, traceEntries]
  | cons op rest ih =>
    cases op with
    | log e =>
      have h1 : (loggerRun st (.log e :: rest)).logs
          <:+ (loggerLog st e).logs ++ traceEntries rest := ih (loggerLog st e)
      have h2 : (loggerLog st e).logs ++ traceEntries rest
          <:+ (st.logs ++ [e]) ++ traceEntries rest :=
        suffix_append_both (loggerLog_logs_suffix st e)
      have h3 := h1.trans h2
      simpa [traceEntries, List.append_assoc] using h3
    | configure m c s2 =>
      have h1 : (loggerRun st (.configure m c s2 :: rest)).logs
          <:+ (loggerConfigure st m c s2).logs ++ traceEntries rest :=
        ih (loggerConfigure st m c s2)
      simpa [traceEntries, loggerConfigure] using h1

theorem loggerRun_maxLogs_pos (ops : List LogOp) (st : LoggerState)
    (hst : st.maxLogs ≠ 0)
    (hops : ∀ m c s2, LogOp.configure (some m) c s2 ∈ ops → m ≠ 0) :
    (loggerRun st ops).maxLogs ≠ 0 := by
  induction ops generalizing st with
  | nil => simpa [loggerRun]
  | cons op rest ih =>
    cases op with
    | log e =>
      exact ih (loggerLog st e) hst (fun m c s2 hm => hops m c s2 (by simp [hm]))
    | configure m c s2 =>
      apply ih (loggerConfigure st m c s2)
      · cases m with
        | none => simpa [loggerConfigure]
        | some v =>
          have := hops v c s2 (by simp)
          simpa [loggerConfigure]
      · exact fun m2 c2 s3 hm => hops m2 c2 s3 (by simp [hm])

/-! ## Helper lemmas: engine ordering -/

theorem rowSortLe_updatedAt_desc (a b : SupabaseRow) :
    rowSortLe .updatedAt false a b = decide (b.updated_at ≤ a.updated_at) := by
  unfold rowSortLe rowFieldCmp
  dsimp only
  rcases Nat.lt_trichotomy a.updated_at b.updated_at with h | h | h
  · rw [Nat.compare_eq_lt.mpr h]
    simp
    omega
  · rw [Nat.compare_eq_eq.mpr h]
    simp
    omega
  · rw [Nat.compare_eq_gt.mpr h]
    simp
    omega

/-! ## Concrete fixtures used by counterexamples and witnesses -/

/-- A stored card with distinct `createdAt` and `updatedAt`. -/
def exCard : Card :=
  { id := 1, title := "A", coverUrl := none, link := none, content := none
    tags := ["x"], createdAt := 5, updatedAt := 10 }

/-- A second stored card with a larger key. -/
def exCard2 : Card :=
  { id := 2, title := "B", coverUrl := none, link := none, content := none
    tags := ["y"], createdAt := 6, updatedAt := 30 }

/-- A create payload with an empty title. -/
def emptyTitleData : CardData :=
  { title := "", coverUrl := none, link := none, content := none, tags := [] }

/-- A Supabase row carrying the single tag `"a"`. -/
def exRow : SupabaseRow :=
  { id := 1, title := "R", cover_url := none, link := none, content := none
    tags := ["a"], created_at := 0, updated_at := 0 }

/-- A plain log entry. -/
def exEntry (n : Nat) : LogEntry :=
  { timestamp := n, level := .info, message := "m" }

/-! ## Claim theorems -/

/-- C1.  The claim says a create request without a title is rejected by the
storage layer with a failure envelope before any backend write.  The code has
no such validation: on both adapters `createCard` with an empty title returns
a success envelope and the empty-titled card is written to the backend. -/
theorem createCard_empty_title_reaches_backend :
    (idbCreateCard [] emptyTitleData 0 1).1.success = true
  ∧ (idbCreateCard [] emptyTitleData 0 1).2
      = [{ id := 1, title := "", coverUrl := none, link := none, content := none
           tags := [], createdAt := 0, updatedAt := 0 }]
  ∧ (sbCreateCard [] emptyTitleData 1 0).1.success = true
  ∧ (sbCreateCard [] emptyTitleData 1 0).2
      = [{ id := 1, title := "", cover_url := none, link := none, content := none
           tags := [], created_at := 0, updated_at := 0 }] := by
  refine ⟨rfl, ?_, rfl, ?_⟩ <;> decide

/-- C4 counterexample.  `initialize()` is claimed idempotent with no repeated
side effects for every adapter instance, but the IndexedDB adapter has no
memoization flag: a second call issues a second engine open (the open counter
reaches 2) even though it reports success. -/
theorem initialize_repeats_engine_open :
    (idbInitialize (idbInitialize idbConnInit).2).1.success = true
  ∧ (idbInitialize idbConnInit).2.opens = 1
  ∧ (idbInitialize (idbInitialize idbConnInit).2).2.opens = 2 :=
  ⟨rfl, rfl, rfl⟩

/-- C4 amended.  After a successful first `initialize()`, a second call on the
Supabase adapter returns success immediately with the instance state unchanged
(in particular no further migration run); the IndexedDB adapter also returns
success on every call but performs a fresh engine open each time. -/
theorem initialize_second_call (st : SBInit) (r1 r2 : DatabaseResult Unit)
    (h : (sbInitialize st r1).1.success = true) :
    (sbInitialize (sbInitialize st r1).2 r2).1
        = { success := true, data := none, error := none }
  ∧ (sbInitialize (sbInitialize st r1).2 r2).2 = (sbInitialize st r1).2
  ∧ (∀ st2 : IDBConn,
      (idbInitialize st2).1.success = true ∧ (idbInitialize st2).2.opens = st2.opens + 1) := by
  have hinit : (sbInitialize st r1).2.initialized = true := by
    unfold sbInitialize at h ⊢
    by_cases h1 : st.initialized = true
    · simp [h1]
    · by_cases h2 : r1.success = true
      · simp [h1, h2]
      · simp [h1, h2] at h
  have hstep : ∀ (st3 : SBInit) (r : DatabaseResult Unit), st3.initialized = true →
      sbInitialize st3 r = ({ success := true, data := none, error := none }, st3) := by
    intro st3 r h3
    unfold sbInitialize
    rw [if_pos h3]
  refine ⟨?_, ?_, fun st2 => ⟨rfl, rfl⟩⟩ <;> rw [hstep _ r2 hinit]

/-- C4 witness: the amended theorem applied to a fresh Supabase instance whose
first migration run succeeds. -/
theorem initialize_second_call_witness :
    (sbInitialize sbInit { success := true }).1.success = true
  ∧ ((sbInitialize (sbInitialize sbInit { success := true }).2 { success := true }).1
        = { success := true, data := none, error := none }
    ∧ (sbInitialize (sbInitialize sbInit { success := true }).2 { success := true }).2
        = (sbInitialize sbInit { success := true }).2
    ∧ (∀ st2 : IDBConn,
        (idbInitialize st2).1.success = true ∧ (idbInitialize st2).2.opens = st2.opens + 1)) :=
  ⟨by decide, initialize_second_call sbInit { success := true } { success := true } (by decide)⟩

/-- C6.  For an id that is not in the store, `getCard` returns a success
envelope whose data is null, and `updateCard` returns a failure envelope whose
message is "Card not found", leaving the store untouched; both outcomes are
envelopes, not exceptions. -/
theorem missing_id_contract (s : List Card) (id : Nat) (updates : CardPatch)
    (now : Nat) (h : ∀ c ∈ s, c.id ≠ id) :
    idbGetCard s id = { success := true, data := some none, error := none }
  ∧ (idbUpdateCard s id updates now).1
      = { success := false, data := none, error := some "Card not found" }
  ∧ (idbUpdateCard s id updates now).2 = s := by
  have hget : storeGet s id = none := by
    unfold storeGet
    rw [List.find?_eq_none]
    intro c hc
    simpa using h c hc
  refine ⟨?_, ?_, ?_⟩
  · unfold idbGetCard
    rw [hget]
  · unfold idbUpdateCard
    rw [hget]
  · unfold idbUpdateCard
    rw [hget]

/-- C6 witness: the contract evaluated on the empty store at id 5. -/
theorem missing_id_contract_witness :
    (∀ c ∈ ([] : List Card), c.id ≠ 5)
  ∧ (idbGetCard [] 5 = { success := true, data := some none, error := none }
    ∧ (idbUpdateCard [] 5 {} 0).1
        = { success := false, data := none, error := some "Card not found" }
    ∧ (idbUpdateCard [] 5 {} 0).2 = []) :=
  ⟨by simp, missing_id_contract [] 5 {} 0 (by simp)⟩

/-- C10.  The bulk operations of the IndexedDB adapter resolve their promise
only inside per-item callbacks; an empty batch registers no callback, so
`bulkCreateCards([])`, `bulkDeleteCards([])` and `importData([])` never settle
(no envelope is ever produced).  `importData` still clears the store before
hanging. -/
theorem empty_batch_never_settles (s : List Card) (now : Nat)
    (genIds : List Nat) (engineFails : Nat → Bool) :
    (idbBulkCreateCards s [] now genIds).1 = none
  ∧ (idbBulkDeleteCards engineFails s []).1 = none
  ∧ (idbImportData s []).1 = none
  ∧ (idbImportData s []).2 = [] :=
  ⟨rfl, rfl, rfl, rfl⟩

/-- C3 counterexample.  The claim says `updateCard` leaves `createdAt`
unchanged even when the partial payload contains a `createdAt` field; in the
IndexedDB adapter the object spread lets the payload overwrite it: updating
the stored card (createdAt 5) with `{createdAt: 99}` stores createdAt 99. -/
theorem updateCard_overwrites_createdAt :
    exCard.createdAt = 5
  ∧ ((idbUpdateCard [exCard] 1 { createdAt := some 99 } 20).1.data.map Card.createdAt
      = some 99)
  ∧ ((storeGet (idbUpdateCard [exCard] 1 { createdAt := some 99 } 20).2 1).map
      Card.createdAt = some 99) := by
  refine ⟨rfl, ?_, ?_⟩ <;> decide

/-- C3 amended.  For an existing id, `updateCard` returns and stores a card
whose `id` is forced back to the requested id and whose `updatedAt` is the
current time (strictly greater than the prior one whenever the clock has
advanced); every field not named in the partial keeps its previous value, and
`createdAt` is preserved provided the partial does not itself name `createdAt`
(the IndexedDB spread would overwrite it).  The Supabase adapter deletes `id`
and `created_at` from the translated payload, so there `created_at` and `id`
survive any partial, and the engine trigger sets `updated_at` to now. -/
theorem updateCard_frame (s : List Card) (id : Nat) (updates : CardPatch)
    (now : Nat) (c : Card) (hfound : storeGet s id = some c)
    (hclk : c.updatedAt < now) (hcr : updates.createdAt = none) :
    (∃ c2, (idbUpdateCard s id updates now).1
        = { success := true, data := some c2, error := none }
      ∧ (idbUpdateCard s id updates now).2 = storePut s c2
      ∧ c2.id = id ∧ c2.createdAt = c.createdAt ∧ c2.updatedAt = now
      ∧ c.updatedAt < c2.updatedAt
      ∧ (updates.title = none → c2.title = c.title)
      ∧ (updates.coverUrl = none → c2.coverUrl = c.coverUrl)
      ∧ (updates.link = none → c2.link = c.link)
      ∧ (updates.content = none → c2.content = c.content)
      ∧ (updates.tags = none → c2.tags = c.tags)
      ∧ storeGet (idbUpdateCard s id updates now).2 id = some c2)
  ∧ (∀ (rows : List SupabaseRow) (r : SupabaseRow) (p : CardPatch),
      rows.find? (fun x => x.id = id) = some r →
      ∃ c3, (sbUpdateCard rows id p now).1
          = { success := true, data := some c3, error := none }
        ∧ c3.id = id ∧ c3.createdAt = r.created_at ∧ c3.updatedAt = now) := by
  constructor
  · refine ⟨{ applyCardPatch c updates with id := id, updatedAt := now }, ?_, ?_, rfl, ?_, rfl, hclk, ?_, ?_, ?_, ?_, ?_, ?_⟩
    · unfold idbUpdateCard
      rw [hfound]
    · unfold idbUpdateCard
      rw [hfound]
    · unfold applyCardPatch
      rw [hcr]
      rfl
    · intro ht
      unfold applyCardPatch
      rw [ht]
      rfl
    · intro ht
      unfold applyCardPatch
      rw [ht]
      rfl
    · intro ht
      unfold applyCardPatch
      rw [ht]
      rfl
    · intro ht
      unfold applyCardPatch
      rw [ht]
      rfl
    · intro ht
      unfold applyCardPatch
      rw [ht]
      rfl
    · unfold idbUpdateCard
      rw [hfound]
      exact storeGet_storePut _ s
  · intro rows r p hfind
    have hrid : r.id = id := by
      have := List.find?_some hfind
      simpa using this
    refine ⟨fromSupabaseCard { applyRowPatch r { toSupabaseCard p with id := none, created_at := none } with updated_at := now }, ?_, ?_, rfl, rfl⟩
    · unfold sbUpdateCard
      rw [hfind]
    · simpa [fromSupabaseCard, applyRowPatch] using hrid

/-- C3 witness: the amended frame property at the concrete store `[exCard]`
with the partial `{title := "X"}` at time 20. -/
theorem updateCard_frame_witness :
    (storeGet [exCard] 1 = some exCard ∧ exCard.updatedAt < 20
      ∧ (CardPatch.createdAt { title := some "X" }) = none)
  ∧ ((∃ c2, (idbUpdateCard [exCard] 1 { title := some "X" } 20).1
        = { success := true, data := some c2, error := none }
      ∧ (idbUpdateCard [exCard] 1 { title := some "X" } 20).2 = storePut [exCard] c2
      ∧ c2.id = 1 ∧ c2.createdAt = exCard.createdAt ∧ c2.updatedAt = 20
      ∧ exCard.updatedAt < c2.updatedAt
      ∧ ((CardPatch.title { title := some "X" }) = none → c2.title = exCard.title)
      ∧ ((CardPatch.coverUrl { title := some "X" }) = none → c2.coverUrl = exCard.coverUrl)
      ∧ ((CardPatch.link { title := some "X" }) = none → c2.link = exCard.link)
      ∧ ((CardPatch.content { title := some "X" }) = none → c2.content = exCard.content)
      ∧ ((CardPatch.tags { title := some "X" }) = none → c2.tags = exCard.tags)
      ∧ storeGet (idbUpdateCard [exCard] 1 { title := some "X" } 20).2 1 = some c2)
    ∧ (∀ (rows : List SupabaseRow) (r : SupabaseRow) (p : CardPatch),
        rows.find? (fun x => x.id = 1) = some r →
        ∃ c3, (sbUpdateCard rows 1 p 20).1
            = { success := true, data := some c3, error := none }
          ∧ c3.id = 1 ∧ c3.createdAt = r.created_at ∧ c3.updatedAt = 20)) :=
  ⟨⟨by decide, by decide, rfl⟩,
    updateCard_frame [exCard] 1 { title := some "X" } 20 exCard (by decide) (by decide) rfl⟩

/-- C7.  For every non-empty store (keys unique and in key order, the
invariant the engine maintains), `exportData()` returns the full snapshot,
`clearAll()` succeeds, and `importData` of the exported snapshot settles with
a success envelope and rebuilds exactly the original card set - every record
keeps its original id, tags and timestamps, because the import re-adds the
exported records verbatim after clearing. -/
theorem export_clear_import_roundtrip (s : List Card)
    (hsorted : s.Pairwise (fun a b => a.id < b.id)) (hne : s ≠ []) :
    idbExportData s = { success := true, data := some s, error := none }
  ∧ (idbClearAll s).1 = { success := true, data := none, error := none }
  ∧ idbImportData (idbClearAll s).2 s
      = (some { success := true, data := none, error := none }, s) := by
  refine ⟨rfl, rfl, ?_⟩
  unfold idbImportData idbClearAll runAddBatch
  dsimp only
  rw [addBatch_sorted s [] [] [] false (by simpa using hsorted)]
  obtain ⟨a, t, rfl⟩ : ∃ a t, s = a :: t := by
    cases s with
    | nil => exact absurd rfl hne
    | cons a t => exact ⟨a, t, rfl⟩
  simp [settleBatch_succ]

/-- C7 witness: the round trip on the two-card store `[exCard, exCard2]`. -/
theorem export_clear_import_roundtrip_witness :
    (([exCard, exCard2]).Pairwise (fun a b => a.id < b.id) ∧ [exCard, exCard2] ≠ [])
  ∧ (idbExportData [exCard, exCard2]
      = { success := true, data := some [exCard, exCard2], error := none }
    ∧ (idbClearAll [exCard, exCard2]).1 = { success := true, data := none, error := none }
    ∧ idbImportData (idbClearAll [exCard, exCard2]).2 [exCard, exCard2]
        = (some { success := true, data := none, error := none }, [exCard, exCard2])) :=
  ⟨⟨by decide, by decide⟩,
    export_clear_import_roundtrip [exCard, exCard2] (by decide) (by decide)⟩

/-- An engine verdict that fails exactly the delete request for id 7. -/
def exDelFails : Nat → Bool := fun i => i == 7

/-- A three-item create batch: the generated ids `[9, 1, 10]` make the first
and third items fresh while the second collides with the stored `exCard`. -/
def abortBatchData : List CardData :=
  [{ title := "X", coverUrl := none, link := none, content := none, tags := [] },
   { title := "Y", coverUrl := none, link := none, content := none, tags := [] },
   { title := "Z", coverUrl := none, link := none, content := none, tags := [] }]

/-- C8.  The claim (with spec sections 4.2 and 7d) says a mixed batch is
processed to the end and the items that succeeded remain committed, with a
failure envelope naming the failed items.  The envelope part holds, but the
adapter's `onerror` handlers never cancel the error event, so the first
failing request aborts the IndexedDB transaction: at the input below the first
create succeeded (its success callback fired, witness the ghost `succeeded`
list) and the third item is fresh, yet the store is left exactly as before the
call - the success was rolled back and the third item was never executed (it
fails with AbortError and is named in the message alongside the colliding
item).  The delete batch behaves the same way: the successful delete of id 1
is rolled back when the faulted request for id 7 aborts the transaction. -/
theorem bulk_failure_aborts_transaction :
    ((runAddBatch [exCard] (idbMkBulkCards abortBatchData 50 [9, 1, 10])).succeeded.map
        Card.title = ["X"])
  ∧ (idbBulkCreateCards [exCard] abortBatchData 50 [9, 1, 10]).1
      = some { success := false, data := none
               error := some "Failed to create cards: Y, Z" }
  ∧ (idbBulkCreateCards [exCard] abortBatchData 50 [9, 1, 10]).2 = [exCard]
  ∧ (runDelBatch exDelFails [exCard, exCard2] [1, 7]).removed = [1]
  ∧ (idbBulkDeleteCards exDelFails [exCard, exCard2] [1, 7]).1
      = some { success := false, data := none
               error := some "Failed to delete cards: 7" }
  ∧ (idbBulkDeleteCards exDelFails [exCard, exCard2] [1, 7]).2 = [exCard, exCard2] := by
  refine ⟨?_, ?_, ?_, ?_, ?_, ?_⟩ <;> decide

/-- C2 counterexample.  The claim says the tags filter is an OR-match in both
adapters; the Supabase adapter uses the Postgres array-contains operator,
which is an AND-match: a population with one row tagged `"a"`, filtered with
`tags = ["a", "b"]`, yields an empty result even though the row carries one of
the supplied tags. -/
theorem remote_tag_filter_not_or_match :
    (sbGetCards [exRow] (some { filters := some { tags := some ["a", "b"] } })).data
      = some []
  ∧ "a" ∈ exRow.tags ∧ "a" ∈ (["a", "b"] : List String) := by
  refine ⟨?_, by decide, by decide⟩
  decide

set_option maxRecDepth 8000 in
/-- C2 amended.  For a non-empty tag filter, the IndexedDB adapter returns
exactly the cards carrying at least one of the supplied tags (OR-match), while
the Supabase adapter returns exactly the cards carrying all of the supplied
tags (AND-match, the Postgres `contains` operator).  For a single-tag filter
the two coincide, so `getCardsByTag` returns exactly the cards whose `tags`
contain the tag on both adapters. -/
theorem tag_filter_semantics (s : List Card) (rows : List SupabaseRow)
    (tags : List String) (tag : String) (c : Card) (hne : tags ≠ []) :
    (c ∈ ((idbGetCards s (some { filters := some { tags := some tags } })).data.getD [])
        ↔ c ∈ s ∧ ∃ t ∈ tags, t ∈ c.tags)
  ∧ (c ∈ ((sbGetCards rows (some { filters := some { tags := some tags } })).data.getD [])
        ↔ ∃ r ∈ rows, (∀ t ∈ tags, t ∈ r.tags) ∧ fromSupabaseCard r = c)
  ∧ (c ∈ ((idbGetCardsByTag s tag).data.getD []) ↔ c ∈ s ∧ tag ∈ c.tags)
  ∧ (c ∈ ((sbGetCardsByTag rows tag).data.getD [])
        ↔ ∃ r ∈ rows, tag ∈ r.tags ∧ fromSupabaseCard r = c) := by
  have hlocal : ∀ (tags2 : List String), tags2 ≠ [] →
      (c ∈ ((idbGetCards s (some { filters := some { tags := some tags2 } })).data.getD [])
        ↔ c ∈ s ∧ ∃ t ∈ tags2, t ∈ c.tags) := by
    intro tags2 h2
    have hlen : 0 < tags2.length := List.length_pos.mpr h2
    have hdata : (idbGetCards s (some { filters := some { tags := some tags2 } })).data
        = some (applyFilters s { tags := some tags2 }) := rfl
    rw [hdata]
    simp [applyFilters, cardMatchesFilters, List.mem_filter, hlen, List.any_eq_true]
  have hremote : ∀ (tags2 : List String), tags2 ≠ [] →
      (c ∈ ((sbGetCards rows (some { filters := some { tags := some tags2 } })).data.getD [])
        ↔ ∃ r ∈ rows, (∀ t ∈ tags2, t ∈ r.tags) ∧ fromSupabaseCard r = c) := by
    intro tags2 h2
    have hlen : 0 < tags2.length := List.length_pos.mpr h2
    have hdata : (sbGetCards rows (some { filters := some { tags := some tags2 } })).data
        = some ((stableSortBy (rowSortLe .updatedAt false)
            (rows.filter (rowMatchesQuery { tags := some tags2 }))).map fromSupabaseCard) := rfl
    rw [hdata]
    simp only [Option.getD_some, List.mem_map, mem_stableSortBy, List.mem_filter]
    constructor
    · rintro ⟨r, ⟨hr, hm⟩, rfl⟩
      refine ⟨r, hr, ?_, rfl⟩
      simp only [rowMatchesQuery, hlen, if_pos, Bool.and_eq_true] at hm
      rcases hm with ⟨⟨hall, _⟩, _⟩
      simpa [List.all_eq_true] using hall
    · rintro ⟨r, hr, hall, rfl⟩
      refine ⟨r, ⟨hr, ?_⟩, rfl⟩
      simp [rowMatchesQuery, hlen, truthyStr, List.all_eq_true]
      exact hall
  refine ⟨hlocal tags hne, hremote tags hne, ?_, ?_⟩
  · have h := hlocal [tag] (by simp)
    simpa [idbGetCardsByTag] using h
  · have h := hremote [tag] (by simp)
    simpa [sbGetCardsByTag] using h

/-- C2 witness: the amended filter semantics evaluated at the one-card local
store, the one-row remote table, the two-tag filter `["x", "z"]` and the
single tag `"a"`. -/
theorem tag_filter_semantics_witness :
    ((["x", "z"] : List String) ≠ [])
  ∧ ((exCard ∈ ((idbGetCards [exCard]
          (some { filters := some { tags := some ["x", "z"] } })).data.getD [])
        ↔ exCard ∈ [exCard] ∧ ∃ t ∈ ["x", "z"], t ∈ exCard.tags)
    ∧ (exCard ∈ ((sbGetCards [exRow]
          (some { filters := some { tags := some ["x", "z"] } })).data.getD [])
        ↔ ∃ r ∈ [exRow], (∀ t ∈ ["x", "z"], t ∈ r.tags) ∧ fromSupabaseCard r = exCard)
    ∧ (exCard ∈ ((idbGetCardsByTag [exCard] "a").data.getD [])
        ↔ exCard ∈ [exCard] ∧ "a" ∈ exCard.tags)
    ∧ (exCard ∈ ((sbGetCardsByTag [exRow] "a").data.getD [])
        ↔ ∃ r ∈ [exRow], "a" ∈ r.tags ∧ fromSupabaseCard r = exCard)) :=
  ⟨by decide, tag_filter_semantics [exCard] [exRow] ["x", "z"] "a" exCard (by decide)⟩

/-- C5 counterexample.  The claim says `getCards` with no `sortBy` returns the
cards sorted by `updatedAt` descending; the IndexedDB adapter only sorts when
`sortBy` is supplied, so a store whose key order disagrees with the
`updatedAt` order comes back in key order: the first returned card has the
strictly smaller `updatedAt`. -/
theorem local_no_default_sort :
    (idbGetCards [exCard, exCard2] none).data = some [exCard, exCard2]
  ∧ exCard.updatedAt < exCard2.updatedAt := ⟨rfl, by decide⟩

set_option maxRecDepth 8000 in
/-- C5 amended.  With no `sortBy` (and no `sortOrder`), only the Supabase
adapter defaults to `updatedAt` descending: its result is sorted descending by
`updatedAt`, while the IndexedDB adapter applies no sorting at all and returns
the filtered store in backend key order (the full store when no filter,
limit or offset is given).  Pagination in the IndexedDB adapter is applied to
the list obtained after filtering and sorting: the result with `limit`/`offset`
set equals the pagination block applied to the result of the same query
without them. -/
theorem getCards_default_order_pagination (s : List Card) (rows : List SupabaseRow)
    (opts : QueryOptions) (hsort : opts.sortBy = none) (horder : opts.sortOrder = none) :
    (idbGetCards s (some { opts with limit := none, offset := none, filters := none })).data
      = some s
  ∧ List.Pairwise (fun a b : Card => b.updatedAt ≤ a.updatedAt)
      (((sbGetCards rows
          (some { opts with limit := none, offset := none, filters := none })).data).getD [])
  ∧ (idbGetCards s (some opts)).data
      = some (applyPagination
          (((idbGetCards s (some { opts with limit := none, offset := none })).data).getD [])
          opts.limit opts.offset) := by
  obtain ⟨lim, off, sb, so, fil⟩ := opts
  simp only at hsort horder
  subst hsort
  subst horder
  refine ⟨rfl, ?_, ?_⟩
  · have htot : ∀ a b : SupabaseRow,
        rowSortLe .updatedAt false a b = true ∨ rowSortLe .updatedAt false b a = true := by
      intro a b
      rw [rowSortLe_updatedAt_desc, rowSortLe_updatedAt_desc]
      simp only [decide_eq_true_eq]
      omega
    have htrans : ∀ a b c : SupabaseRow,
        rowSortLe .updatedAt false a b = true → rowSortLe .updatedAt false b c = true →
        rowSortLe .updatedAt false a c = true := by
      intro a b c
      rw [rowSortLe_updatedAt_desc, rowSortLe_updatedAt_desc, rowSortLe_updatedAt_desc]
      simp only [decide_eq_true_eq]
      omega
    have hp := pairwise_stableSortBy (rowSortLe .updatedAt false) htot htrans rows
    have hp2 : (stableSortBy (rowSortLe .updatedAt false) rows).Pairwise
        (fun a b => b.updated_at ≤ a.updated_at) := by
      refine hp.imp ?_
      intro a b h
      rw [rowSortLe_updatedAt_desc] at h
      exact of_decide_eq_true h
    have hdata : (sbGetCards rows
        (some { limit := none, offset := none, sortBy := none, sortOrder := none,
                filters := none })).data
        = some ((stableSortBy (rowSortLe .updatedAt false) rows).map fromSupabaseCard) := rfl
    rw [hdata]
    exact List.pairwise_map.mpr hp2
  · cases fil <;> rfl

/-- C5 witness: the amended ordering and pagination property at the two-card
store, the one-row table and the options `{limit: 1, offset: 1}`. -/
theorem getCards_default_order_pagination_witness :
    (QueryOptions.sortBy { limit := some 1, offset := some 1 } = none
      ∧ QueryOptions.sortOrder { limit := some 1, offset := some 1 } = none)
  ∧ ((idbGetCards [exCard, exCard2]
        (some { { limit := some 1, offset := some 1 : QueryOptions } with
                limit := none, offset := none, filters := none })).data
      = some [exCard, exCard2]
    ∧ List.Pairwise (fun a b : Card => b.updatedAt ≤ a.updatedAt)
        (((sbGetCards [exRow]
            (some { { limit := some 1, offset := some 1 : QueryOptions } with
                    limit := none, offset := none, filters := none })).data).getD [])
    ∧ (idbGetCards [exCard, exCard2] (some { limit := some 1, offset := some 1 })).data
        = some (applyPagination
            (((idbGetCards [exCard, exCard2]
                (some { { limit := some 1, offset := some 1 : QueryOptions } with
                        limit := none, offset := none })).data).getD [])
            (QueryOptions.limit { limit := some 1, offset := some 1 })
            (QueryOptions.offset { limit := some 1, offset := some 1 }))) :=
  ⟨⟨rfl, rfl⟩,
    getCards_default_order_pagination [exCard, exCard2] [exRow]
      { limit := some 1, offset := some 1 } rfl rfl⟩

/-- C9 counterexample.  The claim says the in-memory buffer holds at most the
configured maximum after every sequence of logging calls including
reconfiguration; but `configure` does not trim, so lowering the cap to 2 after
three log calls leaves three entries in the buffer. -/
theorem logger_configure_exceeds_cap :
    (loggerRun loggerInit
      [.log (exEntry 1), .log (exEntry 2), .log (exEntry 3),
       .configure (some 2) none none]).maxLogs = 2
  ∧ (loggerRun loggerInit
      [.log (exEntry 1), .log (exEntry 2), .log (exEntry 3),
       .configure (some 2) none none]).logs.length = 3 := by
  constructor <;> decide

/-- C9 amended.  After every call sequence that ends in a log call (and whose
reconfigurations set a positive cap), the in-memory buffer holds at most the
configured maximum, dropping oldest entries first (the buffer is a suffix of
the append-order entry history); the local-storage mirror then holds the last
`min(500, length)` entries, so at most 500, and its fixed cap 500 is smaller
than the default in-memory cap 1000.  A cap-lowering `configure` does not
itself trim, so the bound is only restored by the next log call. -/
theorem logger_caps (ops : List LogOp) (e : LogEntry)
    (hpos : ∀ m c s2, LogOp.configure (some m) c s2 ∈ ops → m ≠ 0) :
    (loggerRun loggerInit (ops ++ [LogOp.log e])).logs.length
        ≤ (loggerRun loggerInit (ops ++ [LogOp.log e])).maxLogs
  ∧ (loggerRun loggerInit (ops ++ [LogOp.log e])).logs
        <:+ traceEntries (ops ++ [LogOp.log e])
  ∧ ((loggerRun loggerInit (ops ++ [LogOp.log e])).enableStorage = true →
      (loggerRun loggerInit (ops ++ [LogOp.log e])).storage
        = some (jsSliceLast (loggerRun loggerInit (ops ++ [LogOp.log e])).logs storageCap))
  ∧ (jsSliceLast (loggerRun loggerInit (ops ++ [LogOp.log e])).logs storageCap).length
      ≤ storageCap
  ∧ storageCap < loggerInit.maxLogs := by
  have hrun : loggerRun loggerInit (ops ++ [LogOp.log e])
      = loggerLog (loggerRun loggerInit ops) e := by
    unfold loggerRun
    rw [List.foldl_append]
    rfl
  have hmax0 : (loggerRun loggerInit ops).maxLogs ≠ 0 :=
    loggerRun_maxLogs_pos ops loggerInit (by decide) hpos
  refine ⟨?_, ?_, ?_, ?_, ?_⟩
  · rw [hrun]
    exact loggerLog_length_le (loggerRun loggerInit ops) e hmax0
  · have h1 := loggerRun_logs_suffix (ops ++ [LogOp.log e]) loggerInit
    simpa [loggerInit] using h1
  · intro hes
    rw [hrun] at hes ⊢
    unfold loggerLog at hes ⊢
    dsimp only at hes ⊢
    rw [if_pos hes]
  · exact jsSliceLast_length_le _ _ (by decide)
  · decide

/-- C9 witness: the amended cap property on the sequence that lowers the cap
to 2 and then logs once. -/
theorem logger_caps_witness :
    (∀ m c s2, LogOp.configure (some m) c s2 ∈ [LogOp.configure (some 2) none none] → m ≠ 0)
  ∧ ((loggerRun loggerInit ([LogOp.configure (some 2) none none] ++ [LogOp.log (exEntry 9)])).logs.length
        ≤ (loggerRun loggerInit ([LogOp.configure (some 2) none none] ++ [LogOp.log (exEntry 9)])).maxLogs
    ∧ (loggerRun loggerInit ([LogOp.configure (some 2) none none] ++ [LogOp.log (exEntry 9)])).logs
        <:+ traceEntries ([LogOp.configure (some 2) none none] ++ [LogOp.log (exEntry 9)])
    ∧ ((loggerRun loggerInit ([LogOp.configure (some 2) none none] ++ [LogOp.log (exEntry 9)])).enableStorage = true →
        (loggerRun loggerInit ([LogOp.configure (some 2) none none] ++ [LogOp.log (exEntry 9)])).storage
          = some (jsSliceLast (loggerRun loggerInit ([LogOp.configure (some 2) none none] ++ [LogOp.log (exEntry 9)])).logs storageCap))
    ∧ (jsSliceLast (loggerRun loggerInit ([LogOp.configure (some 2) none none] ++ [LogOp.log (exEntry 9)])).logs storageCap).length
        ≤ storageCap
    ∧ storageCap < loggerInit.maxLogs) :=
  ⟨fun m c s2 h => by
      simp only [List.mem_singleton, LogOp.configure.injEq, Option.some.injEq] at h
      omega,
    logger_caps [LogOp.configure (some 2) none none] (exEntry 9)
      (fun m c s2 h => by
        simp only [List.mem_singleton, LogOp.configure.injEq, Option.some.injEq] at h
        omega)⟩

end KeepPlus
